import Mathlib

/-!
Formal model of the hex-grid game engine in `src/index.js` (rabbit-and-foxes
variant): coordinate packing, tile-to-world conversion, the offset-hex
adjacency resolver, the pursuit AI, the spacebar-driven turn step, collision
and scoring rules, and the terrain passability updates.

Modelling conventions:
* JavaScript numbers that hold integers (tile indices, packed keys, scores,
  lives, turn counters, angle accumulators) are modelled as `Int`.
* JavaScript floating-point arithmetic on world positions (multiples of the
  hex pitch constants 1.77 and 1.535) is modelled exactly over `ℚ`.
* The JavaScript `%` operator truncates toward zero; it is `Int.tmod`.
  `Math.floor` of a real quotient of integers is `Int.fdiv`.
* The generated map (`XYtoPositionDict` / `hardTerrain`) depends on simplex
  noise and `Math.random()`, so it is abstracted as a pair of functions
  `grid hard : Int → Int → Bool` (tile present on the map / tile marked as
  hard terrain), with `GridBounded` recording what the generation loop in
  `buildScene` guarantees: only tiles with both indices in [-LENGTH, LENGTH]
  are ever inserted.
* Tween animations (`TWEEN`) only interpolate a mesh toward its tile's world
  position; actors are modelled by their tile indices, and world positions
  are derived through `tileToPosition`.
-/

/-- `const LENGTH = 45` — map dimension constant. -/
def LENGTH : Int := 45

/-- `const MAX_HEIGHT = 10`. -/
def MAX_HEIGHT : ℚ := 10

/-- `const WATER_HEIGHT = 0.15`. -/
def WATER_HEIGHT : ℚ := 15/100

/-- `function mod(n, m) { return ((n % m) + m) % m; }` — the source's helper
for nonnegative modulus, built from JavaScript's truncating `%`. -/
def jsMod (n m : Int) : Int := Int.tmod (Int.tmod n m + m) m

/-- `XYto1D(x, y) = (x + LENGTH) * 1000 + y + LENGTH` — packs a tile index
pair into a single integer key. -/
def XYto1D (x y : Int) : Int := (x + LENGTH) * 1000 + y + LENGTH

/-- `oneDtoXY(key) = [Math.floor(key / 1000) - LENGTH, key % 1000 - LENGTH]` —
unpacks a key back into a tile index pair. -/
def oneDtoXY (key : Int) : Int × Int :=
  (Int.fdiv key 1000 - LENGTH, Int.tmod key 1000 - LENGTH)

/-- `tileToPosition(tileX, tileY) = Vector2((tileX + (tileY % 2) * 0.5) * 1.77,
tileY * 1.535)`; JavaScript `%` truncates toward zero, hence `Int.tmod`. -/
def tileToPosition (tileX tileY : Int) : ℚ × ℚ :=
  (((tileX : ℚ) + (Int.tmod tileY 2 : Int) * (1/2)) * (177/100), (tileY : ℚ) * (1535/1000))

/-- World position stored in `XYtoPositionDict` for a (present) key: the
dictionary maps `XYto1D i j ↦ tileToPosition i j`, so a lookup decodes the
key back to tile indices. -/
def posOfKey (key : Int) : ℚ × ℚ := tileToPosition (oneDtoXY key).1 (oneDtoXY key).2

/-- Squared Euclidean distance between two world positions.
`Vector2.distanceTo` is its square root; since the square root is strictly
monotone, the comparisons performed by the pursuit loop coincide. -/
def dist2 (p q : ℚ × ℚ) : ℚ := (p.1 - q.1) * (p.1 - q.1) + (p.2 - q.2) * (p.2 - q.2)

/-! ### Arithmetic bridge lemmas for JavaScript `%` and `Math.floor` -/

theorem tmod_neg_left (a b : Int) : Int.tmod (-a) b = - Int.tmod a b := by
  rw [Int.tmod_def, Int.tmod_def, Int.neg_tdiv]
  ring

/-- JavaScript `a % b` for `b ≥ 0`, expressed through the Euclidean `%`
so that `omega` can reason about it. -/
theorem tmod_eq_ite (a b : Int) (hb : 0 ≤ b) :
    Int.tmod a b = if 0 ≤ a then a % b else -((-a) % b) := by
  split_ifs with h
  · exact Int.tmod_eq_emod h hb
  · have h2 : Int.tmod (-a) b = (-a) % b := Int.tmod_eq_emod (by omega) hb
    have h3 : Int.tmod (-(-a)) b = - Int.tmod (-a) b := tmod_neg_left (-a) b
    rw [Int.neg_neg] at h3
    rw [h3, h2]

theorem fdiv_eq_ite (a b : Int) (hb : 0 ≤ b) : Int.fdiv a b = a / b :=
  Int.fdiv_eq_ediv a hb

/-- The source's `mod(n, 2)` is the Euclidean remainder modulo 2. -/
theorem jsMod_two (n : Int) : jsMod n 2 = n % 2 := by
  unfold jsMod
  rw [tmod_eq_ite n 2 (by norm_num)]
  split_ifs with h
  · rw [tmod_eq_ite _ 2 (by norm_num), if_pos (by omega)]
    omega
  · rw [tmod_eq_ite _ 2 (by norm_num)]
    split_ifs with h2
    · omega
    · omega

/-- Unpacking after packing recovers the pair, for `x ≥ -LENGTH` and
`-LENGTH ≤ y ≤ 954 - LENGTH` (wide enough for the map and its candidate
neighbors). -/
theorem oneDtoXY_XYto1D (x y : Int) (hx : -45 ≤ x) (hy : -45 ≤ y) (hy2 : y ≤ 909) :
    oneDtoXY (XYto1D x y) = (x, y) := by
  unfold oneDtoXY XYto1D LENGTH
  have hkey : 0 ≤ (x + 45) * 1000 + y + 45 := by nlinarith
  rw [fdiv_eq_ite _ 1000 (by norm_num), tmod_eq_ite _ 1000 (by norm_num), if_pos hkey]
  have h1 : ((x + 45) * 1000 + y + 45) / 1000 = x + 45 := by omega
  have h2 : ((x + 45) * 1000 + y + 45) % 1000 = y + 45 := by omega
  rw [h1, h2]
  norm_num

/-- C1: for every integer pair (x, y) with |x| ≤ 45 and |y| ≤ 45 (the
configured coordinate range LENGTH = 45), unpacking the packed key returns
the original pair: `oneDtoXY (XYto1D x y) = (x, y)`; in particular `XYto1D`
is injective on that range. -/
theorem pack_unpack_roundtrip (x y : Int)
    (hx1 : -45 ≤ x) (hx2 : x ≤ 45) (hy1 : -45 ≤ y) (hy2 : y ≤ 45) :
    oneDtoXY (XYto1D x y) = (x, y) := by
  exact oneDtoXY_XYto1D x y hx1 hy1 (by omega)

/-- Witness for C1 at the concrete pair (3, -7). -/
theorem pack_unpack_roundtrip_witness :
    oneDtoXY (XYto1D 3 (-7)) = (3, -7) := by
  exact pack_unpack_roundtrip 3 (-7) (by decide) (by decide) (by decide) (by decide)

/-! ### Terrain registry model -/

/-- What the generation loop in `buildScene` guarantees about the map: every
tile inserted into `XYtoPositionDict` has both indices in `[-LENGTH, LENGTH]`
(the loop ranges over `-LENGTH ≤ i, j ≤ LENGTH`). -/
def GridBounded (grid : Int → Int → Bool) : Prop :=
  ∀ x y : Int, grid x y = true → -45 ≤ x ∧ x ≤ 45 ∧ -45 ≤ y ∧ y ≤ 45

/-- Model of `XYtoPositionDict.get(key) != undefined`: the key is present
exactly when it decodes to a tile of the generated map (see `keyOnMap_iff`
for the faithfulness of this decoding under `GridBounded`). -/
def keyOnMap (grid : Int → Int → Bool) (key : Int) : Bool :=
  grid (oneDtoXY key).1 (oneDtoXY key).2

/-- Model of `hardTerrain.get(tilePosition) == 1` for the position stored
under `key`; positions determine tile indices, so hard terrain is read off
the decoded indices. -/
def hardAtKey (hard : Int → Int → Bool) (key : Int) : Bool :=
  hard (oneDtoXY key).1 (oneDtoXY key).2

/-- `checkValidTile(tilePosition)` as seen by callers that obtained
`tilePosition = XYtoPositionDict.get(key)`: an undefined position (key not on
the map) fails `getByValue(...) != undefined`, and a present one passes it;
the second conjunct is `hardTerrain.get(tilePosition) != 1`. -/
def checkValidKey (grid hard : Int → Int → Bool) (key : Int) : Bool :=
  keyOnMap grid key && !(hardAtKey hard key)

/-- Faithfulness of `keyOnMap`: under the generation bounds, a key is
declared on-map exactly when some generated tile packs to it. -/
theorem keyOnMap_iff (grid : Int → Int → Bool) (hb : GridBounded grid) (key : Int) :
    keyOnMap grid key = true ↔ ∃ i j : Int, grid i j = true ∧ XYto1D i j = key := by
  constructor
  · intro h
    refine ⟨(oneDtoXY key).1, (oneDtoXY key).2, h, ?_⟩
    obtain ⟨h1, h2, h3, h4⟩ := hb _ _ h
    simp only [oneDtoXY, XYto1D, LENGTH] at h1 h2 h3 h4 ⊢
    rw [fdiv_eq_ite _ 1000 (by norm_num)] at h1 h2 ⊢
    rw [tmod_eq_ite _ 1000 (by norm_num)] at h3 h4 ⊢
    by_cases hk : 0 ≤ key
    · rw [if_pos hk] at h3 h4 ⊢
      omega
    · rw [if_neg hk] at h3 h4 ⊢
      omega
  · rintro ⟨i, j, hij, rfl⟩
    obtain ⟨h1, h2, h3, h4⟩ := hb _ _ hij
    unfold keyOnMap
    rw [oneDtoXY_XYto1D i j h1 h3 (by omega)]
    exact hij

/-! ### Adjacency resolver -/

/-- The candidate neighbor tiles pushed by `getAllAdjacentTiles(tileX, tileY)`
before the validity filter, in source order, as `(x, y, directionDegrees)`.
The two row-parity branches (`mod(tileY, 2) == 0` / `== 1`) each test the
sign of `tileY` per direction exactly as in the source. -/
def adjCandidates (tileX tileY : Int) : List (Int × Int × Int) :=
  [(tileX + 1, tileY, 0), (tileX - 1, tileY, 180)] ++
  (if jsMod tileY 2 = 0 then
    [(if tileY < 0 then (tileX + 1, tileY + 1, 300) else (tileX, tileY + 1, 300)),
     (if 0 ≤ tileY then (tileX - 1, tileY + 1, 240) else (tileX, tileY + 1, 240)),
     (if 0 < tileY then (tileX - 1, tileY - 1, 120) else (tileX, tileY - 1, 120)),
     (if tileY ≤ 0 then (tileX + 1, tileY - 1, 60) else (tileX, tileY - 1, 60))]
   else if jsMod tileY 2 = 1 then
    [(if 0 < tileY then (tileX + 1, tileY + 1, 300) else (tileX, tileY + 1, 300)),
     (if tileY ≤ 0 then (tileX - 1, tileY + 1, 240) else (tileX, tileY + 1, 240)),
     (if tileY ≤ 0 then (tileX - 1, tileY - 1, 120) else (tileX, tileY - 1, 120)),
     (if 0 < tileY then (tileX + 1, tileY - 1, 60) else (tileX, tileY - 1, 60))]
   else [])

/-- `getAllAdjacentTiles(tileX, tileY)`: each candidate is packed with
`XYto1D`, looked up in `XYtoPositionDict`, and pushed together with its
direction label when `checkValidTile` passes. -/
def getAllAdjacentTiles (grid hard : Int → Int → Bool) (tileX tileY : Int) :
    List (Int × Int) :=
  (adjCandidates tileX tileY).filterMap (fun c =>
    if checkValidKey grid hard (XYto1D c.1 c.2.1) = true then
      some (XYto1D c.1 c.2.1, c.2.2)
    else none)

/-! ### Membership characterization of the candidate lists (one lemma per
row-parity and sign class, mirroring the branch structure of
`getAllAdjacentTiles`) -/

theorem adjCands_even_neg (x y p q : Int) (h0 : y % 2 = 0) (h1 : y < 0) :
    (∃ a : Int, (p, q, a) ∈ adjCandidates x y) ↔
    ((p = x + 1 ∧ q = y) ∨ (p = x - 1 ∧ q = y) ∨ (p = x + 1 ∧ q = y + 1) ∨
     (p = x ∧ q = y + 1) ∨ (p = x ∧ q = y - 1) ∨ (p = x + 1 ∧ q = y - 1)) := by
  rw [adjCandidates, jsMod_two, h0]
  rw [if_pos rfl, if_pos h1, if_neg (by omega), if_neg (by omega), if_pos (by omega)]
  simp only [List.mem_append, List.mem_cons, List.not_mem_nil, or_false, Prod.mk.injEq]
  constructor
  · rintro ⟨a, ((⟨u1, u2, u3⟩ | ⟨u1, u2, u3⟩) | (⟨u1, u2, u3⟩ | ⟨u1, u2, u3⟩ | ⟨u1, u2, u3⟩ | ⟨u1, u2, u3⟩))⟩
    · exact Or.inl ⟨u1, u2⟩
    · exact Or.inr (Or.inl ⟨u1, u2⟩)
    · exact Or.inr (Or.inr (Or.inl ⟨u1, u2⟩))
    · exact Or.inr (Or.inr (Or.inr (Or.inl ⟨u1, u2⟩)))
    · exact Or.inr (Or.inr (Or.inr (Or.inr (Or.inl ⟨u1, u2⟩))))
    · exact Or.inr (Or.inr (Or.inr (Or.inr (Or.inr ⟨u1, u2⟩))))
  · rintro (⟨u1, u2⟩ | ⟨u1, u2⟩ | ⟨u1, u2⟩ | ⟨u1, u2⟩ | ⟨u1, u2⟩ | ⟨u1, u2⟩)
    · exact ⟨0, Or.inl (Or.inl ⟨u1, u2, rfl⟩)⟩
    · exact ⟨180, Or.inl (Or.inr ⟨u1, u2, rfl⟩)⟩
    · exact ⟨300, Or.inr (Or.inl ⟨u1, u2, rfl⟩)⟩
    · exact ⟨240, Or.inr (Or.inr (Or.inl ⟨u1, u2, rfl⟩))⟩
    · exact ⟨120, Or.inr (Or.inr (Or.inr (Or.inl ⟨u1, u2, rfl⟩)))⟩
    · exact ⟨60, Or.inr (Or.inr (Or.inr (Or.inr ⟨u1, u2, rfl⟩)))⟩

theorem adjCands_even_zero (x y p q : Int) (h1 : y = 0) :
    (∃ a : Int, (p, q, a) ∈ adjCandidates x y) ↔
    ((p = x + 1 ∧ q = y) ∨ (p = x - 1 ∧ q = y) ∨ (p = x ∧ q = y + 1) ∨
     (p = x - 1 ∧ q = y + 1) ∨ (p = x ∧ q = y - 1) ∨ (p = x + 1 ∧ q = y - 1)) := by
  subst h1
  rw [adjCandidates, jsMod_two]
  rw [if_pos (by norm_num), if_neg (by omega), if_pos (by omega), if_neg (by omega),
    if_pos (by omega)]
  simp only [List.mem_append, List.mem_cons, List.not_mem_nil, or_false, Prod.mk.injEq]
  constructor
  · rintro ⟨a, ((⟨u1, u2, u3⟩ | ⟨u1, u2, u3⟩) | (⟨u1, u2, u3⟩ | ⟨u1, u2, u3⟩ | ⟨u1, u2, u3⟩ | ⟨u1, u2, u3⟩))⟩
    · exact Or.inl ⟨u1, u2⟩
    · exact Or.inr (Or.inl ⟨u1, u2⟩)
    · exact Or.inr (Or.inr (Or.inl ⟨u1, u2⟩))
    · exact Or.inr (Or.inr (Or.inr (Or.inl ⟨u1, u2⟩)))
    · exact Or.inr (Or.inr (Or.inr (Or.inr (Or.inl ⟨u1, u2⟩))))
    · exact Or.inr (Or.inr (Or.inr (Or.inr (Or.inr ⟨u1, u2⟩))))
  · rintro (⟨u1, u2⟩ | ⟨u1, u2⟩ | ⟨u1, u2⟩ | ⟨u1, u2⟩ | ⟨u1, u2⟩ | ⟨u1, u2⟩)
    · exact ⟨0, Or.inl (Or.inl ⟨u1, u2, rfl⟩)⟩
    · exact ⟨180, Or.inl (Or.inr ⟨u1, u2, rfl⟩)⟩
    · exact ⟨300, Or.inr (Or.inl ⟨u1, u2, rfl⟩)⟩
    · exact ⟨240, Or.inr (Or.inr (Or.inl ⟨u1, u2, rfl⟩))⟩
    · exact ⟨120, Or.inr (Or.inr (Or.inr (Or.inl ⟨u1, u2, rfl⟩)))⟩
    · exact ⟨60, Or.inr (Or.inr (Or.inr (Or.inr ⟨u1, u2, rfl⟩)))⟩

theorem adjCands_even_pos (x y p q : Int) (h0 : y % 2 = 0) (h1 : 0 < y) :
    (∃ a : Int, (p, q, a) ∈ adjCandidates x y) ↔
    ((p = x + 1 ∧ q = y) ∨ (p = x - 1 ∧ q = y) ∨ (p = x ∧ q = y + 1) ∨
     (p = x - 1 ∧ q = y + 1) ∨ (p = x - 1 ∧ q = y - 1) ∨ (p = x ∧ q = y - 1)) := by
  rw [adjCandidates, jsMod_two, h0]
  rw [if_pos rfl, if_neg (by omega), if_pos (by omega), if_pos h1, if_neg (by omega)]
  simp only [List.mem_append, List.mem_cons, List.not_mem_nil, or_false, Prod.mk.injEq]
  constructor
  · rintro ⟨a, ((⟨u1, u2, u3⟩ | ⟨u1, u2, u3⟩) | (⟨u1, u2, u3⟩ | ⟨u1, u2, u3⟩ | ⟨u1, u2, u3⟩ | ⟨u1, u2, u3⟩))⟩
    · exact Or.inl ⟨u1, u2⟩
    · exact Or.inr (Or.inl ⟨u1, u2⟩)
    · exact Or.inr (Or.inr (Or.inl ⟨u1, u2⟩))
    · exact Or.inr (Or.inr (Or.inr (Or.inl ⟨u1, u2⟩)))
    · exact Or.inr (Or.inr (Or.inr (Or.inr (Or.inl ⟨u1, u2⟩))))
    · exact Or.inr (Or.inr (Or.inr (Or.inr (Or.inr ⟨u1, u2⟩))))
  · rintro (⟨u1, u2⟩ | ⟨u1, u2⟩ | ⟨u1, u2⟩ | ⟨u1, u2⟩ | ⟨u1, u2⟩ | ⟨u1, u2⟩)
    · exact ⟨0, Or.inl (Or.inl ⟨u1, u2, rfl⟩)⟩
    · exact ⟨180, Or.inl (Or.inr ⟨u1, u2, rfl⟩)⟩
    · exact ⟨300, Or.inr (Or.inl ⟨u1, u2, rfl⟩)⟩
    · exact ⟨240, Or.inr (Or.inr (Or.inl ⟨u1, u2, rfl⟩))⟩
    · exact ⟨120, Or.inr (Or.inr (Or.inr (Or.inl ⟨u1, u2, rfl⟩)))⟩
    · exact ⟨60, Or.inr (Or.inr (Or.inr (Or.inr ⟨u1, u2, rfl⟩)))⟩

theorem adjCands_odd_pos (x y p q : Int) (h0 : y % 2 = 1) (h1 : 0 < y) :
    (∃ a : Int, (p, q, a) ∈ adjCandidates x y) ↔
    ((p = x + 1 ∧ q = y) ∨ (p = x - 1 ∧ q = y) ∨ (p = x + 1 ∧ q = y + 1) ∨
     (p = x ∧ q = y + 1) ∨ (p = x ∧ q = y - 1) ∨ (p = x + 1 ∧ q = y - 1)) := by
  rw [adjCandidates, jsMod_two, h0]
  rw [if_neg (by omega), if_pos rfl, if_pos h1, if_neg (by omega), if_neg (by omega),
    if_pos h1]
  simp only [List.mem_append, List.mem_cons, List.not_mem_nil, or_false, Prod.mk.injEq]
  constructor
  · rintro ⟨a, ((⟨u1, u2, u3⟩ | ⟨u1, u2, u3⟩) | (⟨u1, u2, u3⟩ | ⟨u1, u2, u3⟩ | ⟨u1, u2, u3⟩ | ⟨u1, u2, u3⟩))⟩
    · exact Or.inl ⟨u1, u2⟩
    · exact Or.inr (Or.inl ⟨u1, u2⟩)
    · exact Or.inr (Or.inr (Or.inl ⟨u1, u2⟩))
    · exact Or.inr (Or.inr (Or.inr (Or.inl ⟨u1, u2⟩)))
    · exact Or.inr (Or.inr (Or.inr (Or.inr (Or.inl ⟨u1, u2⟩))))
    · exact Or.inr (Or.inr (Or.inr (Or.inr (Or.inr ⟨u1, u2⟩))))
  · rintro (⟨u1, u2⟩ | ⟨u1, u2⟩ | ⟨u1, u2⟩ | ⟨u1, u2⟩ | ⟨u1, u2⟩ | ⟨u1, u2⟩)
    · exact ⟨0, Or.inl (Or.inl ⟨u1, u2, rfl⟩)⟩
    · exact ⟨180, Or.inl (Or.inr ⟨u1, u2, rfl⟩)⟩
    · exact ⟨300, Or.inr (Or.inl ⟨u1, u2, rfl⟩)⟩
    · exact ⟨240, Or.inr (Or.inr (Or.inl ⟨u1, u2, rfl⟩))⟩
    · exact ⟨120, Or.inr (Or.inr (Or.inr (Or.inl ⟨u1, u2, rfl⟩)))⟩
    · exact ⟨60, Or.inr (Or.inr (Or.inr (Or.inr ⟨u1, u2, rfl⟩)))⟩

theorem adjCands_odd_neg (x y p q : Int) (h0 : y % 2 = 1) (h1 : y < 0) :
    (∃ a : Int, (p, q, a) ∈ adjCandidates x y) ↔
    ((p = x + 1 ∧ q = y) ∨ (p = x - 1 ∧ q = y) ∨ (p = x ∧ q = y + 1) ∨
     (p = x - 1 ∧ q = y + 1) ∨ (p = x - 1 ∧ q = y - 1) ∨ (p = x ∧ q = y - 1)) := by
  rw [adjCandidates, jsMod_two, h0]
  rw [if_neg (by omega), if_pos rfl, if_neg (by omega), if_pos (by omega), if_pos (by omega),
    if_neg (by omega)]
  simp only [List.mem_append, List.mem_cons, List.not_mem_nil, or_false, Prod.mk.injEq]
  constructor
  · rintro ⟨a, ((⟨u1, u2, u3⟩ | ⟨u1, u2, u3⟩) | (⟨u1, u2, u3⟩ | ⟨u1, u2, u3⟩ | ⟨u1, u2, u3⟩ | ⟨u1, u2, u3⟩))⟩
    · exact Or.inl ⟨u1, u2⟩
    · exact Or.inr (Or.inl ⟨u1, u2⟩)
    · exact Or.inr (Or.inr (Or.inl ⟨u1, u2⟩))
    · exact Or.inr (Or.inr (Or.inr (Or.inl ⟨u1, u2⟩)))
    · exact Or.inr (Or.inr (Or.inr (Or.inr (Or.inl ⟨u1, u2⟩))))
    · exact Or.inr (Or.inr (Or.inr (Or.inr (Or.inr ⟨u1, u2⟩))))
  · rintro (⟨u1, u2⟩ | ⟨u1, u2⟩ | ⟨u1, u2⟩ | ⟨u1, u2⟩ | ⟨u1, u2⟩ | ⟨u1, u2⟩)
    · exact ⟨0, Or.inl (Or.inl ⟨u1, u2, rfl⟩)⟩
    · exact ⟨180, Or.inl (Or.inr ⟨u1, u2, rfl⟩)⟩
    · exact ⟨300, Or.inr (Or.inl ⟨u1, u2, rfl⟩)⟩
    · exact ⟨240, Or.inr (Or.inr (Or.inl ⟨u1, u2, rfl⟩))⟩
    · exact ⟨120, Or.inr (Or.inr (Or.inr (Or.inl ⟨u1, u2, rfl⟩)))⟩
    · exact ⟨60, Or.inr (Or.inr (Or.inr (Or.inr ⟨u1, u2, rfl⟩)))⟩

theorem mem_adjCandidates_iff (x y p q : Int) :
    (∃ a : Int, (p, q, a) ∈ adjCandidates x y) ↔
    ((q = y ∧ (p = x + 1 ∨ p = x - 1)) ∨
     (q = y + 1 ∧
       ((((y % 2 = 0 ∧ y < 0) ∨ (y % 2 = 1 ∧ 0 < y)) ∧ (p = x + 1 ∨ p = x)) ∨
        (¬((y % 2 = 0 ∧ y < 0) ∨ (y % 2 = 1 ∧ 0 < y)) ∧ (p = x ∨ p = x - 1)))) ∨
     (q = y - 1 ∧
       ((((y % 2 = 0 ∧ y ≤ 0) ∨ (y % 2 = 1 ∧ 0 < y)) ∧ (p = x ∨ p = x + 1)) ∨
        (¬((y % 2 = 0 ∧ y ≤ 0) ∨ (y % 2 = 1 ∧ 0 < y)) ∧ (p = x - 1 ∨ p = x))))) := by
  rcases Int.emod_two_eq y with h0 | h0
  · rcases lt_trichotomy y 0 with h1 | h1 | h1
    · rw [adjCands_even_neg x y p q h0 h1]
      omega
    · rw [adjCands_even_zero x y p q h1]
      omega
    · rw [adjCands_even_pos x y p q h0 h1]
      omega
  · rcases lt_trichotomy y 0 with h1 | h1 | h1
    · rw [adjCands_odd_neg x y p q h0 h1]
      omega
    · omega
    · rw [adjCands_odd_pos x y p q h0 h1]
      omega

theorem cand_symm (x1 y1 x2 y2 : Int) :
    (∃ a : Int, (x2, y2, a) ∈ adjCandidates x1 y1) ↔
    (∃ a : Int, (x1, y1, a) ∈ adjCandidates x2 y2) := by
  rw [mem_adjCandidates_iff, mem_adjCandidates_iff]
  omega

/-- Every candidate neighbor lies in one of the three rows `y - 1`, `y`,
`y + 1`. -/
theorem adjCandidates_row_bound (x y : Int) (c : Int × Int × Int)
    (hc : c ∈ adjCandidates x y) : y - 1 ≤ c.2.1 ∧ c.2.1 ≤ y + 1 := by
  obtain ⟨p, q, a⟩ := c
  have h : ∃ a' : Int, (p, q, a') ∈ adjCandidates x y := ⟨a, hc⟩
  rw [mem_adjCandidates_iff] at h
  simp only
  omega

/-- The candidate list never holds more than 6 entries. -/
theorem adjCandidates_length_le (x y : Int) : (adjCandidates x y).length ≤ 6 := by
  unfold adjCandidates
  split_ifs <;> simp

/-- Membership of a packed tile index among the results of
`getAllAdjacentTiles`, reduced to candidate membership, for a passable
on-map target tile. -/
theorem mem_map_fst_getAllAdjacentTiles (grid hard : Int → Int → Bool)
    (hb : GridBounded grid) (x1 y1 x2 y2 : Int)
    (hsrc : grid x1 y1 = true) (htm : grid x2 y2 = true) (htp : hard x2 y2 = false) :
    (XYto1D x2 y2 ∈ (getAllAdjacentTiles grid hard x1 y1).map Prod.fst ↔
      ∃ a : Int, (x2, y2, a) ∈ adjCandidates x1 y1) := by
  obtain ⟨b1, b2, b3, b4⟩ := hb x1 y1 hsrc
  obtain ⟨c1, c2, c3, c4⟩ := hb x2 y2 htm
  have hv : checkValidKey grid hard (XYto1D x2 y2) = true := by
    unfold checkValidKey keyOnMap hardAtKey
    rw [oneDtoXY_XYto1D x2 y2 c1 c3 (by omega)]
    simp [htm, htp]
  constructor
  · intro h
    simp only [List.mem_map, getAllAdjacentTiles, List.mem_filterMap] at h
    obtain ⟨b, ⟨c, hc, hfc⟩, hb1⟩ := h
    by_cases hval : checkValidKey grid hard (XYto1D c.1 c.2.1) = true
    · rw [if_pos hval] at hfc
      have hkeq : XYto1D c.1 c.2.1 = XYto1D x2 y2 := by
        have h5 := Option.some.inj hfc
        rw [← hb1, ← h5]
      have hrow := adjCandidates_row_bound x1 y1 c hc
      have hceq : c.1 = x2 ∧ c.2.1 = y2 := by
        unfold XYto1D LENGTH at hkeq
        omega
      refine ⟨c.2.2, ?_⟩
      have : c = (x2, y2, c.2.2) := by
        obtain ⟨p, q, a⟩ := c
        simp only at hceq ⊢
        simp [hceq.1, hceq.2]
      rw [← this]
      exact hc
    · rw [if_neg hval] at hfc
      exact absurd hfc (by simp)
  · rintro ⟨a, ha⟩
    simp only [List.mem_map, getAllAdjacentTiles, List.mem_filterMap]
    refine ⟨(XYto1D x2 y2, a), ⟨(x2, y2, a), ha, ?_⟩, rfl⟩
    rw [if_pos hv]

/-- C3: for all on-map, passable tiles (x1, y1) and (x2, y2), the packed
index of the second appears in `getAllAdjacentTiles(x1, y1)` exactly when the
packed index of the first appears in `getAllAdjacentTiles(x2, y2)`: the
neighbor relation, including its special cases around y = 0, is symmetric. -/
theorem adjacency_reciprocal (grid hard : Int → Int → Bool) (hb : GridBounded grid)
    (x1 y1 x2 y2 : Int)
    (h1m : grid x1 y1 = true) (h1p : hard x1 y1 = false)
    (h2m : grid x2 y2 = true) (h2p : hard x2 y2 = false) :
    (XYto1D x2 y2 ∈ (getAllAdjacentTiles grid hard x1 y1).map Prod.fst ↔
     XYto1D x1 y1 ∈ (getAllAdjacentTiles grid hard x2 y2).map Prod.fst) := by
  rw [mem_map_fst_getAllAdjacentTiles grid hard hb x1 y1 x2 y2 h1m h2m h2p,
    mem_map_fst_getAllAdjacentTiles grid hard hb x2 y2 x1 y1 h2m h1m h1p]
  exact cand_symm x1 y1 x2 y2

/-- A concrete two-tile map used by witnesses. -/
def gridPair : Int → Int → Bool := fun x y => decide ((x = 0 ∨ x = 1) ∧ y = 0)

/-- The all-passable hard-terrain assignment used by witnesses. -/
def hardNone : Int → Int → Bool := fun _ _ => false

theorem gridPair_bounded : GridBounded gridPair := by
  intro x y h
  have h2 := of_decide_eq_true h
  omega

/-- Witness for C3 on the two-tile map: (1,0) and (0,0) are mutually
adjacent. -/
theorem adjacency_reciprocal_witness :
    (XYto1D 1 0 ∈ (getAllAdjacentTiles gridPair hardNone 0 0).map Prod.fst ↔
     XYto1D 0 0 ∈ (getAllAdjacentTiles gridPair hardNone 1 0).map Prod.fst) := by
  exact adjacency_reciprocal gridPair hardNone gridPair_bounded 0 0 1 0
    (by decide) (by decide) (by decide) (by decide)

/-- C4: `getAllAdjacentTiles` returns at most 6 entries, and every returned
packed index decodes to a tile that is on the generated map and passable
(off-map or impassable candidates are excluded by the validity filter). -/
theorem adjacency_bounded_and_valid (grid hard : Int → Int → Bool) (x y : Int)
    (p : Int × Int) (hp : p ∈ getAllAdjacentTiles grid hard x y) :
    (getAllAdjacentTiles grid hard x y).length ≤ 6 ∧
    grid (oneDtoXY p.1).1 (oneDtoXY p.1).2 = true ∧
    hard (oneDtoXY p.1).1 (oneDtoXY p.1).2 = false := by
  refine ⟨?_, ?_⟩
  · calc (getAllAdjacentTiles grid hard x y).length
        ≤ (adjCandidates x y).length := List.length_filterMap_le _ _
      _ ≤ 6 := adjCandidates_length_le x y
  · simp only [getAllAdjacentTiles, List.mem_filterMap] at hp
    obtain ⟨c, hc, hfc⟩ := hp
    by_cases hval : checkValidKey grid hard (XYto1D c.1 c.2.1) = true
    · rw [if_pos hval] at hfc
      have h5 := Option.some.inj hfc
      unfold checkValidKey keyOnMap hardAtKey at hval
      rw [Bool.and_eq_true, Bool.not_eq_true'] at hval
      rw [← h5]
      exact ⟨hval.1, hval.2⟩
    · rw [if_neg hval] at hfc
      exact absurd hfc (by simp)

/-- Witness for C4 on the two-tile map at tile (0,0): the single neighbor is
(1,0), present and passable. -/
theorem adjacency_bounded_and_valid_witness :
    (getAllAdjacentTiles gridPair hardNone 0 0).length ≤ 6 ∧
    gridPair (oneDtoXY (XYto1D 1 0, (0 : Int)).1).1 (oneDtoXY (XYto1D 1 0, (0 : Int)).1).2 = true ∧
    hardNone (oneDtoXY (XYto1D 1 0, (0 : Int)).1).1 (oneDtoXY (XYto1D 1 0, (0 : Int)).1).2 = false := by
  exact adjacency_bounded_and_valid gridPair hardNone 0 0 (XYto1D 1 0, 0) (by decide)

/-! ### Tile-to-world conversion (C2) -/

/-- Modelled from the claim's words for comparison: the conversion that uses
the nonnegative residue of y modulo 2, so that every odd row — negative odd
rows included — would be offset by +0.5 * 1.77. The source instead uses the
JavaScript truncating `%`. -/
def tileToPositionClaim (tileX tileY : Int) : ℚ × ℚ :=
  (((tileX : ℚ) + ((tileY % 2 : Int) : ℚ) * (1/2)) * (177/100), (tileY : ℚ) * (1535/1000))

/-- Counterexample to C2 as stated: at tile (0, -1) the source conversion
offsets by -0.5 * 1.77 (JavaScript `(-1) % 2 = -1`), not by +0.5 * 1.77 as
the nonnegative-residue reading demands. -/
theorem tileToPosition_claim_counterexample :
    tileToPosition 0 (-1) ≠ tileToPositionClaim 0 (-1) := by
  unfold tileToPosition tileToPositionClaim
  intro h
  have h1 := congrArg Prod.fst h
  simp only at h1
  rw [show Int.tmod (-1) 2 = -1 from by decide,
    show ((-1 : Int) % 2) = 1 from by decide] at h1
  norm_num at h1

/-- C2 (amended): `tileToPosition x y = ((x + (y rem 2) * 0.5) * 1.77,
y * 1.535)` where `y rem 2` is the JavaScript truncating remainder: even rows
get no offset, positive odd rows are offset by +0.5 * 1.77, and negative odd
rows by -0.5 * 1.77. -/
theorem tileToPosition_eq (x y : Int) :
    tileToPosition x y =
      (if y % 2 = 0 then ((x : ℚ) * (177/100), (y : ℚ) * (1535/1000))
       else if 0 < y then (((x : ℚ) + 1/2) * (177/100), (y : ℚ) * (1535/1000))
       else (((x : ℚ) - 1/2) * (177/100), (y : ℚ) * (1535/1000))) := by
  unfold tileToPosition
  rw [tmod_eq_ite y 2 (by norm_num)]
  rcases Int.emod_two_eq y with h0 | h0
  · rw [if_pos h0]
    by_cases h1 : 0 ≤ y
    · rw [if_pos h1, h0]
      simp only [Prod.mk.injEq]
      refine ⟨?_, trivial⟩
      push_cast
      ring
    · rw [if_neg h1, show (-y) % 2 = 0 from by omega]
      simp only [Prod.mk.injEq]
      refine ⟨?_, trivial⟩
      push_cast
      ring
  · rw [if_neg (show ¬ y % 2 = 0 from by omega)]
    by_cases h1 : 0 < y
    · rw [if_pos h1, if_pos (show (0 : Int) ≤ y from by omega), h0]
      simp only [Prod.mk.injEq]
      refine ⟨?_, trivial⟩
      push_cast
      ring
    · rw [if_neg h1, if_neg (show ¬ (0 : Int) ≤ y from by omega),
        show (-y) % 2 = 1 from by omega]
      simp only [Prod.mk.injEq]
      refine ⟨?_, trivial⟩
      push_cast
      ring

/-! ### Pursuit AI (`getClosestAdjacentTileToRabbit`, `updateFoxes`) -/

/-- One iteration of the loop in `getClosestAdjacentTileToRabbit`: the
accumulator carries `closestTile` with its `minDistance`; `none` stands for
the initial `minDistance = Infinity` state, and the update fires only on a
strictly smaller distance, so the first minimum encountered is kept. -/
def pursuitStep (rabbitPos : ℚ × ℚ) (acc : Option ((Int × Int) × ℚ))
    (possibleTile : Int × Int) : Option ((Int × Int) × ℚ) :=
  match acc with
  | none => some (possibleTile, dist2 (posOfKey possibleTile.1) rabbitPos)
  | some best =>
    if dist2 (posOfKey possibleTile.1) rabbitPos < best.2 then
      some (possibleTile, dist2 (posOfKey possibleTile.1) rabbitPos)
    else some best

/-- `getClosestAdjacentTileToRabbit(allAdjacent, ...)`: scans the adjacency
list and returns `[closestTile, angle]`, or `none` (the source's
`[undefined, undefined]`) for an empty list. `rabbitPos` is the world
position of the rabbit's tile, as looked up through `XYtoPositionDict`. -/
def getClosestAdjacentTileToRabbit (rabbitPos : ℚ × ℚ)
    (allAdjacent : List (Int × Int)) : Option (Int × Int) :=
  (allAdjacent.foldl (pursuitStep rabbitPos) none).map Prod.fst

/-- One fox's move in `updateFoxes`: compute the adjacency list, pick the
closest adjacent tile to the rabbit, skip the move (`continue`) when the
lookup of the chosen key is undefined — which happens exactly when the
adjacency list is empty — and otherwise re-read the fox's tile indices from
the chosen key with `oneDtoXY`. -/
def foxStep (grid hard : Int → Int → Bool) (rab fox : Int × Int) : Int × Int :=
  match getClosestAdjacentTileToRabbit (posOfKey (XYto1D rab.1 rab.2))
      (getAllAdjacentTiles grid hard fox.1 fox.2) with
  | none => fox
  | some closest => oneDtoXY closest.1

/-- Invariant of the pursuit fold: starting from a current best `b`, the scan
returns the first element of `b :: l` realizing the minimum distance. -/
theorem pursuitFold_spec (rp : ℚ × ℚ) (l : List (Int × Int)) :
    ∀ b : Int × Int, ∃ r : Int × Int,
      List.foldl (pursuitStep rp) (some (b, dist2 (posOfKey b.1) rp)) l =
        some (r, dist2 (posOfKey r.1) rp) ∧
      ((r = b ∧ ∀ t ∈ l, dist2 (posOfKey b.1) rp ≤ dist2 (posOfKey t.1) rp) ∨
       (∃ l1 l2, l = l1 ++ r :: l2 ∧
         dist2 (posOfKey r.1) rp < dist2 (posOfKey b.1) rp ∧
         (∀ t ∈ l1, dist2 (posOfKey r.1) rp < dist2 (posOfKey t.1) rp) ∧
         (∀ t ∈ l2, dist2 (posOfKey r.1) rp ≤ dist2 (posOfKey t.1) rp))) := by
  induction l with
  | nil =>
    intro b
    exact ⟨b, rfl, Or.inl ⟨rfl, by simp⟩⟩
  | cons a l ih =>
    intro b
    rw [List.foldl_cons]
    by_cases h : dist2 (posOfKey a.1) rp < dist2 (posOfKey b.1) rp
    · rw [show pursuitStep rp (some (b, dist2 (posOfKey b.1) rp)) a =
          some (a, dist2 (posOfKey a.1) rp) from by simp [pursuitStep, h]]
      obtain ⟨r, hr, hcase⟩ := ih a
      refine ⟨r, hr, Or.inr ?_⟩
      rcases hcase with ⟨rfl, hall⟩ | ⟨l1, l2, heq, hlt, h1, h2⟩
      · exact ⟨[], l, by simp, h, by simp, hall⟩
      · refine ⟨a :: l1, l2, by simp [heq], lt_trans hlt h, ?_, h2⟩
        intro t ht
        rcases List.mem_cons.mp ht with rfl | ht2
        · exact hlt
        · exact h1 t ht2
    · rw [show pursuitStep rp (some (b, dist2 (posOfKey b.1) rp)) a =
          some (b, dist2 (posOfKey b.1) rp) from by simp [pursuitStep, h]]
      obtain ⟨r, hr, hcase⟩ := ih b
      refine ⟨r, hr, ?_⟩
      rcases hcase with ⟨rfl, hall⟩ | ⟨l1, l2, heq, hlt, h1, h2⟩
      · refine Or.inl ⟨rfl, ?_⟩
        intro t ht
        rcases List.mem_cons.mp ht with rfl | ht2
        · exact le_of_not_lt h
        · exact hall t ht2
      · refine Or.inr ⟨a :: l1, l2, by simp [heq], hlt, ?_, h2⟩
        intro t ht
        rcases List.mem_cons.mp ht with rfl | ht2
        · exact lt_of_lt_of_le hlt (le_of_not_lt h)
        · exact h1 t ht2

/-- C5: when a fox's adjacency list is empty the fox stays put; otherwise
`getClosestAdjacentTileToRabbit` returns the candidate at minimal (squared)
Euclidean distance to the rabbit's tile position, ties broken in favor of the
first candidate in the resolver's order, and the fox moves there. -/
theorem pursuit_selects_closest (grid hard : Int → Int → Bool) (rab fox : Int × Int) :
    (getAllAdjacentTiles grid hard fox.1 fox.2 = [] →
      foxStep grid hard rab fox = fox) ∧
    (getAllAdjacentTiles grid hard fox.1 fox.2 ≠ [] →
      ∃ c l1 l2,
        getClosestAdjacentTileToRabbit (posOfKey (XYto1D rab.1 rab.2))
          (getAllAdjacentTiles grid hard fox.1 fox.2) = some c ∧
        getAllAdjacentTiles grid hard fox.1 fox.2 = l1 ++ c :: l2 ∧
        (∀ t ∈ l1, dist2 (posOfKey c.1) (posOfKey (XYto1D rab.1 rab.2)) <
          dist2 (posOfKey t.1) (posOfKey (XYto1D rab.1 rab.2))) ∧
        (∀ t ∈ l2, dist2 (posOfKey c.1) (posOfKey (XYto1D rab.1 rab.2)) ≤
          dist2 (posOfKey t.1) (posOfKey (XYto1D rab.1 rab.2))) ∧
        foxStep grid hard rab fox = oneDtoXY c.1) := by
  constructor
  · intro h
    unfold foxStep
    rw [h]
    rfl
  · intro h
    obtain ⟨a, l', heq⟩ := List.exists_cons_of_ne_nil h
    have hfold : getClosestAdjacentTileToRabbit (posOfKey (XYto1D rab.1 rab.2))
        (getAllAdjacentTiles grid hard fox.1 fox.2) =
        (List.foldl (pursuitStep (posOfKey (XYto1D rab.1 rab.2)))
          (some (a, dist2 (posOfKey a.1) (posOfKey (XYto1D rab.1 rab.2)))) l').map Prod.fst := by
      unfold getClosestAdjacentTileToRabbit
      rw [heq, List.foldl_cons]
      rfl
    obtain ⟨r, hr, hcase⟩ :=
      pursuitFold_spec (posOfKey (XYto1D rab.1 rab.2)) l' a
    have hclosest : getClosestAdjacentTileToRabbit (posOfKey (XYto1D rab.1 rab.2))
        (getAllAdjacentTiles grid hard fox.1 fox.2) = some r := by
      rw [hfold, hr]
      rfl
    have hstep : foxStep grid hard rab fox = oneDtoXY r.1 := by
      unfold foxStep
      rw [hclosest]
    rcases hcase with ⟨rfl, hall⟩ | ⟨l1, l2, hdec, hlt, h1, h2⟩
    · exact ⟨r, [], l', hclosest, by simp [heq], by simp, hall, hstep⟩
    · refine ⟨r, a :: l1, l2, hclosest, by rw [heq, hdec]; rfl, ?_, h2, hstep⟩
      intro t ht
      rcases List.mem_cons.mp ht with rfl | ht2
      · exact hlt
      · exact h1 t ht2

/-- Witness for C5 on the two-tile map: the fox at (0,0) has the single
neighbor (1,0) and moves onto the rabbit's tile. -/
theorem pursuit_selects_closest_witness :
    ∃ c l1 l2,
      getClosestAdjacentTileToRabbit (posOfKey (XYto1D 1 0))
        (getAllAdjacentTiles gridPair hardNone 0 0) = some c ∧
      getAllAdjacentTiles gridPair hardNone 0 0 = l1 ++ c :: l2 ∧
      (∀ t ∈ l1, dist2 (posOfKey c.1) (posOfKey (XYto1D 1 0)) <
        dist2 (posOfKey t.1) (posOfKey (XYto1D 1 0))) ∧
      (∀ t ∈ l2, dist2 (posOfKey c.1) (posOfKey (XYto1D 1 0)) ≤
        dist2 (posOfKey t.1) (posOfKey (XYto1D 1 0))) ∧
      foxStep gridPair hardNone (1, 0) (0, 0) = oneDtoXY c.1 := by
  exact (pursuit_selects_closest gridPair hardNone (1, 0) (0, 0)).2 (by decide)

/-! ### Turn and game-state machine -/

/-- Status line written to the DOM element `status` by the turn logic. -/
inductive Status where
  | start
  | cantGoThere
  | doingGreat
  | babyLocated
deriving DecidableEq

/-- Normalized key identifiers consumed by the `keydown` listener. -/
inductive Key where
  | space
  | arrowLeft
  | arrowRight
  | other
deriving DecidableEq

/-- The module-level mutable game state: the rabbit's tile indices and facing
angle, the predator/collectible tile lists, the star (goal) tile, and the
counters. `ended` records that `endGame(type)` ran and with which argument
(the source only writes the end screen to the DOM; no game logic reads it or
resets it). -/
structure GameState where
  rabbitX : Int
  rabbitY : Int
  rabbitAngle : Int
  foxes : List (Int × Int)
  bears : List (Int × Int)
  babies : List (Int × Int)
  star : Int × Int
  lives : Int
  score : Int
  turnNumber : Int
  babiesLeft : Int
  ended : Option Int
  status : Status
deriving DecidableEq

/-- `Math.floor(LENGTH * LENGTH * 0.05)` as computed inline by
`updateScore`: the floor of 45 * 45 * 5/100 = 101.25, i.e. 101. -/
def maxRewardedTurns : Int := Int.fdiv (45 * 45 * 5) 100

/-- `updateScore(scoreType)`: +10 for a baby rabbit (type 1), +1 for
surviving a turn before `maxRewardedTurns` (type 2), the end bonus
`2 * (maxRewardedTurns - turnNumber)` for reaching the star early (type 10),
-5 for a fox hit (type -1), -10 for a bear hit (type -2). -/
def updateScore (scoreType : Int) (s : GameState) : GameState :=
  if scoreType = 1 then { s with score := s.score + 10 }
  else if scoreType = 2 then
    (if s.turnNumber < maxRewardedTurns then { s with score := s.score + 1 } else s)
  else if scoreType = 10 then
    (if s.turnNumber < maxRewardedTurns then
      { s with score := s.score + 2 * (maxRewardedTurns - s.turnNumber) } else s)
  else if scoreType = -1 then { s with score := s.score - 5 }
  else if scoreType = -2 then { s with score := s.score - 10 }
  else s

/-- `updateLives(type)`: deduct 4 or 2 lives, then `endGame(-1)` as soon as
lives reach 0 or below. -/
def updateLives (kind : Int) (s : GameState) : GameState :=
  let s2 :=
    if kind = 4 then { s with lives := s.lives - 4 }
    else if kind = 2 then { s with lives := s.lives - 2 }
    else s
  if s2.lives ≤ 0 then { s2 with ended := some (-1) } else s2

/-- `updateRabbitPerspective()`: arrow keys rotate the rabbit by ±60 degrees
(the `angleMetric` accumulator, kept in [0, 360) by `mod`). -/
def updateRabbitPerspective (key : Key) (s : GameState) : GameState :=
  match key with
  | Key.arrowLeft => { s with rabbitAngle := jsMod (s.rabbitAngle + 60) 360 }
  | Key.arrowRight => { s with rabbitAngle := jsMod (s.rabbitAngle - 60) 360 }
  | _ => s

/-- The sequential tile-index updates of the even-row branch of
`moveRabbitUponSpacebar`; each `if` tests `angleMetric` and the sign of
`prevY` (the row before the move) exactly as the source does. -/
def stepEven (am prevY : Int) (p : Int × Int) : Int × Int :=
  let p1 := if jsMod (am + 60) 360 = 0 then
    ((if prevY < 0 then p.1 + 1 else p.1), p.2 + 1) else p
  let p2 := if jsMod (am + 120) 360 = 0 then
    ((if 0 ≤ prevY then p1.1 - 1 else p1.1), p1.2 + 1) else p1
  let p3 := if jsMod (am + 240) 360 = 0 then
    ((if 0 < prevY then p2.1 - 1 else p2.1), p2.2 - 1) else p2
  let p4 := if jsMod (am + 300) 360 = 0 then
    ((if prevY ≤ 0 then p3.1 + 1 else p3.1), p3.2 - 1) else p3
  p4

/-- The odd-row branch of `moveRabbitUponSpacebar`. -/
def stepOdd (am prevY : Int) (p : Int × Int) : Int × Int :=
  let p1 := if jsMod (am + 60) 360 = 0 then
    ((if 0 < prevY then p.1 + 1 else p.1), p.2 + 1) else p
  let p2 := if jsMod (am + 120) 360 = 0 then
    ((if prevY ≤ 0 then p1.1 - 1 else p1.1), p1.2 + 1) else p1
  let p3 := if jsMod (am + 240) 360 = 0 then
    ((if prevY ≤ 0 then p2.1 - 1 else p2.1), p2.2 - 1) else p2
  let p4 := if jsMod (am + 300) 360 = 0 then
    ((if 0 < prevY then p3.1 + 1 else p3.1), p3.2 - 1) else p3
  p4

/-- The tentative tile the rabbit moves to on spacebar, as a function of its
current tile and `angleMetric` (the mutation part of `moveRabbitUponSpacebar`
before the validity check). -/
def rabbitTarget (prevX prevY am : Int) : Int × Int :=
  if jsMod am 360 = 0 then (prevX + 1, prevY)
  else if jsMod (am + 180) 360 = 0 then (prevX - 1, prevY)
  else if jsMod prevY 2 = 0 then stepEven am prevY (prevX, prevY)
  else if jsMod prevY 2 = 1 then stepOdd am prevY (prevX, prevY)
  else (prevX, prevY)

/-- `updateBabyRabbits()`: every baby rabbit on the rabbit's tile decrements
`babiesLeft`, scores +10 and sets the status line. (The source removes the
mesh from the scene but never filters the `babyRabbits` array.) -/
def updateBabyRabbits (s : GameState) : GameState :=
  s.babies.foldl
    (fun acc baby =>
      if baby.1 = acc.rabbitX ∧ baby.2 = acc.rabbitY then
        let a1 := { acc with babiesLeft := acc.babiesLeft - 1 }
        let a2 := updateScore 1 a1
        { a2 with status := Status.babyLocated }
      else acc)
    s

/-- `moveRabbitUponSpacebar()`: compute the tentative target from
`angleMetric` and row parity; if the target tile is off-map or hard terrain,
restore the previous indices and report "YOU CAN'T GO THERE" (the source
mutates and then restores `tileX`/`tileY`; no jump tween starts, so the
world position also stays); otherwise move (the jump tween ends at the
target tile's world position), report "YOU'RE DOING GREAT", score the
turn-survival bonus every 4th turn, and collect babies. -/
def moveRabbitUponSpacebar (grid hard : Int → Int → Bool) (s : GameState) : GameState :=
  let t := rabbitTarget s.rabbitX s.rabbitY s.rabbitAngle
  if checkValidKey grid hard (XYto1D t.1 t.2) = false then
    { s with status := Status.cantGoThere }
  else
    let s1 := { s with rabbitX := t.1, rabbitY := t.2, status := Status.doingGreat }
    let s2 := if Int.tmod s1.turnNumber 4 = 0 then updateScore 2 s1 else s1
    updateBabyRabbits s2

/-- `updateFoxes()`: every fox steps toward the rabbit (see `foxStep`). -/
def updateFoxes (grid hard : Int → Int → Bool) (s : GameState) : GameState :=
  { s with foxes := s.foxes.map (foxStep grid hard (s.rabbitX, s.rabbitY)) }

/-- `updateBears()`: the identical traversal for the bears. -/
def updateBears (grid hard : Int → Int → Bool) (s : GameState) : GameState :=
  { s with bears := s.bears.map (foxStep grid hard (s.rabbitX, s.rabbitY)) }

/-- One predator comparison in `checkCollisions`: on a position match
(positions coincide exactly when tiles coincide), apply the life penalty and
then the score penalty. -/
def predatorStep (livesKind scoreType : Int) (acc : GameState) (p : Int × Int) : GameState :=
  if acc.rabbitX = p.1 ∧ acc.rabbitY = p.2 then
    updateScore scoreType (updateLives livesKind acc)
  else acc

/-- `checkCollisions()`: foxes cost 2 lives and 5 points, bears cost 4 lives
and 10 points, and standing on the star scores the end bonus and runs
`endGame(1)`. -/
def checkCollisions (s : GameState) : GameState :=
  let s1 := s.foxes.foldl (predatorStep 2 (-1)) s
  let s2 := s1.bears.foldl (predatorStep 4 (-2)) s1
  if s2.rabbitX = s2.star.1 ∧ s2.rabbitY = s2.star.2 then
    { updateScore 10 s2 with ended := some 1 }
  else s2

/-- The `keydown` listener installed by `initListeners`: every key first
updates the rabbit's facing; spacebar additionally runs the move, increments
the turn counter unconditionally, moves foxes every 2nd and bears every 3rd
turn, and resolves collisions. Nothing here consults `ended`. -/
def keydown (key : Key) (grid hard : Int → Int → Bool) (s : GameState) : GameState :=
  let s0 := updateRabbitPerspective key s
  if key = Key.space then
    let s1 := moveRabbitUponSpacebar grid hard s0
    let s2 := { s1 with turnNumber := s1.turnNumber + 1 }
    let s3 := if Int.tmod s2.turnNumber 2 = 0 then updateFoxes grid hard s2 else s2
    let s4 := if Int.tmod s3.turnNumber 3 = 0 then updateBears grid hard s3 else s3
    checkCollisions s4
  else s0

/-- Number of predators from `l` standing on tile (rx, ry). -/
def hitCount (rx ry : Int) (l : List (Int × Int)) : Nat :=
  l.countP (fun p => decide (rx = p.1 ∧ ry = p.2))

/-! ### Field-preservation helpers -/

theorem foldl_preserves {α β σ : Type _} (proj : σ → β) (g : σ → α → σ)
    (h : ∀ s a, proj (g s a) = proj s) (l : List α) :
    ∀ s, proj (List.foldl g s l) = proj s := by
  induction l with
  | nil => intro s; rfl
  | cons a l ih => intro s; rw [List.foldl_cons, ih, h]

theorem updateScore_turn (k : Int) (s : GameState) :
    (updateScore k s).turnNumber = s.turnNumber := by
  unfold updateScore
  split_ifs <;> rfl

theorem updateLives_turn (k : Int) (s : GameState) :
    (updateLives k s).turnNumber = s.turnNumber := by
  unfold updateLives
  dsimp only
  split_ifs <;> rfl

theorem predatorStep_turn (lk sk : Int) (acc : GameState) (p : Int × Int) :
    (predatorStep lk sk acc p).turnNumber = acc.turnNumber := by
  unfold predatorStep
  split_ifs with h
  · rw [updateScore_turn, updateLives_turn]
  · rfl

theorem updateBabyRabbits_turn (s : GameState) :
    (updateBabyRabbits s).turnNumber = s.turnNumber := by
  unfold updateBabyRabbits
  refine foldl_preserves GameState.turnNumber _ ?_ s.babies s
  intro acc baby
  dsimp only
  split_ifs with h
  · show (updateScore 1 { acc with babiesLeft := acc.babiesLeft - 1 }).turnNumber =
      acc.turnNumber
    rw [updateScore_turn]
  · rfl

theorem moveRabbit_turn (grid hard : Int → Int → Bool) (s : GameState) :
    (moveRabbitUponSpacebar grid hard s).turnNumber = s.turnNumber := by
  unfold moveRabbitUponSpacebar
  dsimp only
  split_ifs with h1 h2
  · rfl
  · rw [updateBabyRabbits_turn, updateScore_turn]
  · rw [updateBabyRabbits_turn]

theorem checkCollisions_turn (s : GameState) :
    (checkCollisions s).turnNumber = s.turnNumber := by
  unfold checkCollisions
  dsimp only
  split_ifs with h
  · show (updateScore 10 _).turnNumber = s.turnNumber
    rw [updateScore_turn,
      foldl_preserves GameState.turnNumber _ (predatorStep_turn 4 (-2)),
      foldl_preserves GameState.turnNumber _ (predatorStep_turn 2 (-1))]
  · rw [foldl_preserves GameState.turnNumber _ (predatorStep_turn 4 (-2)),
      foldl_preserves GameState.turnNumber _ (predatorStep_turn 2 (-1))]

theorem updateRabbitPerspective_turn (key : Key) (s : GameState) :
    (updateRabbitPerspective key s).turnNumber = s.turnNumber := by
  cases key <;> rfl

/-! ### C6 — rejected player moves are no-ops -/

/-- C6: when the confirmed spacebar move targets an off-map or impassable
tile, the move is rejected: the rabbit's tile indices (hence its world
position, as no jump tween is started) stay exactly as they were, and the
rejection is signaled through the status line "YOU CAN'T GO THERE". -/
theorem move_rejected_noop (grid hard : Int → Int → Bool) (s : GameState)
    (hinv : checkValidKey grid hard
      (XYto1D (rabbitTarget s.rabbitX s.rabbitY s.rabbitAngle).1
        (rabbitTarget s.rabbitX s.rabbitY s.rabbitAngle).2) = false) :
    (moveRabbitUponSpacebar grid hard s).rabbitX = s.rabbitX ∧
    (moveRabbitUponSpacebar grid hard s).rabbitY = s.rabbitY ∧
    tileToPosition (moveRabbitUponSpacebar grid hard s).rabbitX
        (moveRabbitUponSpacebar grid hard s).rabbitY =
      tileToPosition s.rabbitX s.rabbitY ∧
    (moveRabbitUponSpacebar grid hard s).status = Status.cantGoThere := by
  unfold moveRabbitUponSpacebar
  dsimp only
  rw [if_pos hinv]
  exact ⟨rfl, rfl, rfl, rfl⟩

/-- A concrete state used by several scenarios: the rabbit at (1, 0) facing
0 degrees on the two-tile map, so its spacebar target (2, 0) is off-map. -/
def baseState : GameState :=
  { rabbitX := 1, rabbitY := 0, rabbitAngle := 0, foxes := [], bears := [],
    babies := [], star := (9, 9), lives := 10, score := 0, turnNumber := 0,
    babiesLeft := 0, ended := none, status := Status.start }

/-- Witness for C6: the move from (1,0) toward the off-map tile (2,0) is
rejected and leaves the rabbit in place. -/
theorem move_rejected_noop_witness :
    (moveRabbitUponSpacebar gridPair hardNone baseState).rabbitX = baseState.rabbitX ∧
    (moveRabbitUponSpacebar gridPair hardNone baseState).rabbitY = baseState.rabbitY ∧
    tileToPosition (moveRabbitUponSpacebar gridPair hardNone baseState).rabbitX
        (moveRabbitUponSpacebar gridPair hardNone baseState).rabbitY =
      tileToPosition baseState.rabbitX baseState.rabbitY ∧
    (moveRabbitUponSpacebar gridPair hardNone baseState).status = Status.cantGoThere := by
  exact move_rejected_noop gridPair hardNone baseState (by decide)

/-! ### C7 — the turn counter -/

/-- Counterexample to C7 as stated: from `baseState` the spacebar move is
rejected (status "YOU CAN'T GO THERE", rabbit unmoved), yet the keydown
handler still increments `turnNumber`, because `turnNumber++` runs
unconditionally after `moveRabbitUponSpacebar()` returns. -/
theorem turn_advances_on_rejected_move :
    (keydown Key.space gridPair hardNone baseState).status = Status.cantGoThere ∧
    (keydown Key.space gridPair hardNone baseState).rabbitX = baseState.rabbitX ∧
    (keydown Key.space gridPair hardNone baseState).rabbitY = baseState.rabbitY ∧
    (keydown Key.space gridPair hardNone baseState).turnNumber =
      baseState.turnNumber + 1 := by
  decide

/-- C7 (amended): `turnNumber` is non-decreasing and increments by exactly 1
per spacebar press — whether the move is applied or rejected — and is
unchanged by every other key. -/
theorem turn_counter_step (key : Key) (grid hard : Int → Int → Bool) (s : GameState) :
    (keydown Key.space grid hard s).turnNumber = s.turnNumber + 1 ∧
    (key ≠ Key.space → (keydown key grid hard s).turnNumber = s.turnNumber) ∧
    s.turnNumber ≤ (keydown key grid hard s).turnNumber := by
  have hspace : (keydown Key.space grid hard s).turnNumber = s.turnNumber + 1 := by
    unfold keydown
    dsimp only
    rw [if_pos rfl, checkCollisions_turn]
    split_ifs <;>
      · show (moveRabbitUponSpacebar grid hard s).turnNumber + 1 = s.turnNumber + 1
        rw [moveRabbit_turn]
  have hother : key ≠ Key.space → (keydown key grid hard s).turnNumber = s.turnNumber := by
    intro hk
    unfold keydown
    dsimp only
    rw [if_neg hk, updateRabbitPerspective_turn]
  refine ⟨hspace, hother, ?_⟩
  by_cases hk : key = Key.space
  · subst hk
    rw [hspace]
    omega
  · rw [hother hk]

/-! ### C8 — no terminal lock -/

/-- A state in which the game has already been lost: `endGame(-1)` has run
(`ended = some (-1)`, the death screen is showing) and lives are exhausted. -/
def deadState : GameState :=
  { rabbitX := 0, rabbitY := 0, rabbitAngle := 0, foxes := [], bears := [],
    babies := [], star := (9, 9), lives := 0, score := 0, turnNumber := 0,
    babiesLeft := 0, ended := some (-1), status := Status.start }

/-- C8 fails on the code: after `endGame(-1)` has run, the keydown listener
is still installed and consults no terminal flag, so a further spacebar press
still advances `turnNumber`, moves the rabbit, and changes the score. -/
theorem no_terminal_lock :
    deadState.ended = some (-1) ∧
    deadState.lives ≤ 0 ∧
    (keydown Key.space gridPair hardNone deadState).turnNumber =
      deadState.turnNumber + 1 ∧
    (keydown Key.space gridPair hardNone deadState).rabbitX ≠ deadState.rabbitX ∧
    (keydown Key.space gridPair hardNone deadState).score ≠ deadState.score := by
  decide

/-! ### C9 — collision penalties and the Lost transition -/

theorem updateLives_eq (k : Int) (hk : k = 2 ∨ k = 4) (s : GameState) :
    updateLives k s =
      { s with
        lives := s.lives - k,
        ended := (if s.lives - k ≤ 0 then some (-1) else s.ended) } := by
  rcases hk with rfl | rfl <;>
    (simp only [updateLives]; norm_num; split_ifs <;> rfl)

theorem updateScore_eq_neg1 (s : GameState) :
    updateScore (-1) s = { s with score := s.score - 5 } := by
  simp only [updateScore]
  norm_num

theorem updateScore_eq_neg2 (s : GameState) :
    updateScore (-2) s = { s with score := s.score - 10 } := by
  simp only [updateScore]
  norm_num

theorem predatorStep_fox (acc : GameState) (p : Int × Int) :
    predatorStep 2 (-1) acc p =
      if acc.rabbitX = p.1 ∧ acc.rabbitY = p.2 then
        { acc with
          lives := acc.lives - 2,
          score := acc.score - 5,
          ended := (if acc.lives - 2 ≤ 0 then some (-1) else acc.ended) }
      else acc := by
  unfold predatorStep
  by_cases h : acc.rabbitX = p.1 ∧ acc.rabbitY = p.2
  · rw [if_pos h, if_pos h, updateLives_eq 2 (Or.inl rfl), updateScore_eq_neg1]
  · rw [if_neg h, if_neg h]

theorem predatorStep_bear (acc : GameState) (p : Int × Int) :
    predatorStep 4 (-2) acc p =
      if acc.rabbitX = p.1 ∧ acc.rabbitY = p.2 then
        { acc with
          lives := acc.lives - 4,
          score := acc.score - 10,
          ended := (if acc.lives - 4 ≤ 0 then some (-1) else acc.ended) }
      else acc := by
  unfold predatorStep
  by_cases h : acc.rabbitX = p.1 ∧ acc.rabbitY = p.2
  · rw [if_pos h, if_pos h, updateLives_eq 4 (Or.inr rfl), updateScore_eq_neg2]
  · rw [if_neg h, if_neg h]

/-- Characterization of one predator-collision loop of `checkCollisions`:
lives and score drop linearly in the number of predators standing on the
rabbit's tile, all other fields are untouched, and `endGame(-1)` has run
after the loop exactly when some hit occurred and the resulting lives are
0 or below (the life check runs inside `updateLives` after each deduction,
and lives only decrease, so the last hit sees the final value). -/
theorem predatorFold_spec (dl ds rx ry : Int) (hdl : 0 < dl)
    (step : GameState → (Int × Int) → GameState)
    (hstep : ∀ acc p, step acc p =
      if acc.rabbitX = p.1 ∧ acc.rabbitY = p.2 then
        { acc with
          lives := acc.lives - dl,
          score := acc.score - ds,
          ended := (if acc.lives - dl ≤ 0 then some (-1) else acc.ended) }
      else acc)
    (l : List (Int × Int)) :
    ∀ s : GameState, s.rabbitX = rx → s.rabbitY = ry →
      (List.foldl step s l).rabbitX = rx ∧
      (List.foldl step s l).rabbitY = ry ∧
      (List.foldl step s l).foxes = s.foxes ∧
      (List.foldl step s l).bears = s.bears ∧
      (List.foldl step s l).star = s.star ∧
      (List.foldl step s l).turnNumber = s.turnNumber ∧
      (List.foldl step s l).lives = s.lives - dl * (hitCount rx ry l : Int) ∧
      (List.foldl step s l).score = s.score - ds * (hitCount rx ry l : Int) ∧
      (List.foldl step s l).ended =
        (if 1 ≤ hitCount rx ry l ∧ (List.foldl step s l).lives ≤ 0
         then some (-1) else s.ended) := by
  induction l with
  | nil =>
    intro s h1 h2
    refine ⟨h1, h2, rfl, rfl, rfl, rfl, ?_, ?_, ?_⟩
    · simp [hitCount]
    · simp [hitCount]
    · simp [hitCount]
  | cons p l ih =>
    intro s h1 h2
    rw [List.foldl_cons, hstep s p]
    by_cases hp : s.rabbitX = p.1 ∧ s.rabbitY = p.2
    · rw [if_pos hp]
      obtain ⟨i1, i2, i3, i4, i5, i6, i7, i8, i9⟩ :=
        ih { s with
              lives := s.lives - dl,
              score := s.score - ds,
              ended := (if s.lives - dl ≤ 0 then some (-1) else s.ended) } h1 h2
      have hcount : hitCount rx ry (p :: l) = hitCount rx ry l + 1 := by
        have e1 : rx = p.1 := h1.symm.trans hp.1
        have e2 : ry = p.2 := h2.symm.trans hp.2
        simp [hitCount, List.countP_cons, e1, e2]
      refine ⟨i1, i2, i3, i4, i5, i6, ?_, ?_, ?_⟩
      · rw [i7, hcount]
        dsimp only
        push_cast
        ring
      · rw [i8, hcount]
        dsimp only
        push_cast
        ring
      · rw [i9, hcount, i7]
        dsimp only
        rcases Nat.eq_zero_or_pos (hitCount rx ry l) with hn | hn
        · rw [hn]
          simp only [Nat.cast_zero, mul_zero, sub_zero]
          split_ifs <;> first | rfl | omega
        · have hb0 : 0 < dl * (hitCount rx ry l : Int) :=
            mul_pos (by omega) (by exact_mod_cast hn)
          split_ifs <;> first | rfl | omega
    · rw [if_neg hp]
      obtain ⟨i1, i2, i3, i4, i5, i6, i7, i8, i9⟩ := ih s h1 h2
      have hcount : hitCount rx ry (p :: l) = hitCount rx ry l := by
        have e : ¬(rx = p.1 ∧ ry = p.2) := fun hc => hp ⟨h1.trans hc.1, h2.trans hc.2⟩
        simp [hitCount, List.countP_cons, e]
      rw [hcount]
      exact ⟨i1, i2, i3, i4, i5, i6, i7, i8, i9⟩

/-- A lethal fox hit taken while the rabbit stands on the star tile. -/
def starCollisionState : GameState :=
  { rabbitX := 9, rabbitY := 9, rabbitAngle := 0, foxes := [(9, 9)], bears := [],
    babies := [], star := (9, 9), lives := 2, score := 0, turnNumber := 0,
    babiesLeft := 0, ended := none, status := Status.start }

/-- Counterexample to C9 as stated: when the lethal predator hit lands on the
star's tile, lives drop to 0 but the star branch of `checkCollisions` runs
`endGame(1)` after `updateLives` ran `endGame(-1)`, so the game ends as Won
(`ended = some 1`), not Lost — the claim's unconditional "transitions to
Lost" clause fails. -/
theorem lost_transition_counterexample :
    (checkCollisions starCollisionState).lives ≤ 0 ∧
    1 ≤ hitCount starCollisionState.rabbitX starCollisionState.rabbitY
      starCollisionState.foxes ∧
    (checkCollisions starCollisionState).ended = some 1 ∧
    (checkCollisions starCollisionState).ended ≠ some (-1) := by
  decide

/-- C9 (amended): during collision resolution, every fox on the rabbit's
tile costs 2 lives and 5 score points, every bear on it costs 4 lives and 10
points, and whenever at least one predator hit drives lives to 0 or below,
the game has transitioned to Lost (`endGame(-1)`) in that same turn —
provided the rabbit is not standing on the star's tile, where the star
branch instead runs `endGame(1)` last and the game ends as Won. -/
theorem checkCollisions_penalties (s : GameState)
    (hstar : ¬(s.rabbitX = s.star.1 ∧ s.rabbitY = s.star.2)) :
    (checkCollisions s).lives =
      s.lives - 2 * (hitCount s.rabbitX s.rabbitY s.foxes : Int)
        - 4 * (hitCount s.rabbitX s.rabbitY s.bears : Int) ∧
    (checkCollisions s).score =
      s.score - 5 * (hitCount s.rabbitX s.rabbitY s.foxes : Int)
        - 10 * (hitCount s.rabbitX s.rabbitY s.bears : Int) ∧
    (1 ≤ hitCount s.rabbitX s.rabbitY s.foxes + hitCount s.rabbitX s.rabbitY s.bears →
      (checkCollisions s).lives ≤ 0 → (checkCollisions s).ended = some (-1)) := by
  obtain ⟨f1, f2, f3, f4, f5, f6, f7, f8, f9⟩ :=
    predatorFold_spec 2 5 s.rabbitX s.rabbitY (by norm_num) (predatorStep 2 (-1))
      predatorStep_fox s.foxes s rfl rfl
  obtain ⟨g1, g2, g3, g4, g5, g6, g7, g8, g9⟩ :=
    predatorFold_spec 4 10 s.rabbitX s.rabbitY (by norm_num) (predatorStep 4 (-2))
      predatorStep_bear ((List.foldl (predatorStep 2 (-1)) s s.foxes).bears)
      (List.foldl (predatorStep 2 (-1)) s s.foxes) f1 f2
  have hbears : hitCount s.rabbitX s.rabbitY
      ((List.foldl (predatorStep 2 (-1)) s s.foxes).bears) =
      hitCount s.rabbitX s.rabbitY s.bears := by
    rw [f4]
  have hcond : ¬((List.foldl (predatorStep 4 (-2))
        (List.foldl (predatorStep 2 (-1)) s s.foxes)
        ((List.foldl (predatorStep 2 (-1)) s s.foxes).bears)).rabbitX =
      (List.foldl (predatorStep 4 (-2)) (List.foldl (predatorStep 2 (-1)) s s.foxes)
        ((List.foldl (predatorStep 2 (-1)) s s.foxes).bears)).star.1 ∧
      (List.foldl (predatorStep 4 (-2)) (List.foldl (predatorStep 2 (-1)) s s.foxes)
        ((List.foldl (predatorStep 2 (-1)) s s.foxes).bears)).rabbitY =
      (List.foldl (predatorStep 4 (-2)) (List.foldl (predatorStep 2 (-1)) s s.foxes)
        ((List.foldl (predatorStep 2 (-1)) s s.foxes).bears)).star.2) := by
    rw [g1, g2, g5, f5]
    exact hstar
  have hcc : checkCollisions s =
      List.foldl (predatorStep 4 (-2)) (List.foldl (predatorStep 2 (-1)) s s.foxes)
        ((List.foldl (predatorStep 2 (-1)) s s.foxes).bears) := by
    unfold checkCollisions
    dsimp only
    rw [if_neg hcond]
  refine ⟨?_, ?_, ?_⟩
  · rw [hcc, g7, f7, hbears]
  · rw [hcc, g8, f8, hbears]
  · intro hhits hlives
    rw [hcc] at hlives
    rw [g7, f7, hbears] at hlives
    rw [hcc, g9, g7, f7, hbears]
    by_cases hb : 1 ≤ hitCount s.rabbitX s.rabbitY s.bears
    · rw [if_pos ⟨hb, hlives⟩]
    · rw [if_neg (fun hc => hb hc.1)]
      rw [f9]
      rw [if_pos ⟨by omega, by rw [f7]; omega⟩]

/-- A concrete collision scenario: one fox on the rabbit's tile, 2 lives. -/
def collisionState : GameState :=
  { rabbitX := 0, rabbitY := 0, rabbitAngle := 0, foxes := [(0, 0)], bears := [],
    babies := [], star := (9, 9), lives := 2, score := 0, turnNumber := 0,
    babiesLeft := 0, ended := none, status := Status.start }

/-- Witness for C9: one fox hit takes 2 lives and 5 points and, with only 2
lives left, loses the game that turn. -/
theorem checkCollisions_penalties_witness :
    (checkCollisions collisionState).lives =
      collisionState.lives
        - 2 * (hitCount collisionState.rabbitX collisionState.rabbitY collisionState.foxes : Int)
        - 4 * (hitCount collisionState.rabbitX collisionState.rabbitY collisionState.bears : Int) ∧
    (checkCollisions collisionState).score =
      collisionState.score
        - 5 * (hitCount collisionState.rabbitX collisionState.rabbitY collisionState.foxes : Int)
        - 10 * (hitCount collisionState.rabbitX collisionState.rabbitY collisionState.bears : Int) ∧
    (1 ≤ hitCount collisionState.rabbitX collisionState.rabbitY collisionState.foxes +
        hitCount collisionState.rabbitX collisionState.rabbitY collisionState.bears →
      (checkCollisions collisionState).lives ≤ 0 →
      (checkCollisions collisionState).ended = some (-1)) := by
  exact checkCollisions_penalties collisionState (by decide)

/-! ### Terrain passability updates (C10) -/

/-- Height thresholds used by `hex` for texturing and decoration. -/
def STONE_HEIGHT : ℚ := MAX_HEIGHT * (8/10)

/-- `DIRT_HEIGHT = MAX_HEIGHT * 0.65`. -/
def DIRT_HEIGHT : ℚ := MAX_HEIGHT * (65/100)

/-- `GRASS_HEIGHT = MAX_HEIGHT * 0.35`. -/
def GRASS_HEIGHT : ℚ := MAX_HEIGHT * (35/100)

/-- `SAND_HEIGHT = MAX_HEIGHT * WATER_HEIGHT + 0.01`. -/
def SAND_HEIGHT : ℚ := MAX_HEIGHT * WATER_HEIGHT + 1/100

/-- `GRAVEL_HEIGHT = MAX_HEIGHT * WATER_HEIGHT * 0.66`. -/
def GRAVEL_HEIGHT : ℚ := MAX_HEIGHT * WATER_HEIGHT * (66/100)

/-- `DIRT2_HEIGHT = MAX_HEIGHT * 0`. -/
def DIRT2_HEIGHT : ℚ := MAX_HEIGHT * 0

/-- The initial passability record in `buildScene`: water-level tiles
(noise ≤ WATER_HEIGHT) enter `hardTerrain` with value 1, every other tile
with value 0. This is the only write of a passable (0) value in the
program. -/
def initialHard (noise : ℚ) : Bool := noise ≤ WATER_HEIGHT

/-- `hardTerrain.set(tilePosition, 1)` for the tile at `pos`. -/
def markHard (pos : Int × Int) (hard : Int × Int → Bool) : Int × Int → Bool :=
  fun q => if q = pos then true else hard q

/-- The effect of `hex(height, tilePosition)` on the `hardTerrain` map: the
decoration branches that place rocks (stone, grass, sand bands) or trees
(grass band) write value 1 for that tile; mushrooms, flowers and grass
decorations write nothing, and the dirt, gravel and dirt2 bands never write.
`valid` abstracts the `checkValidTile(tilePosition)` test, `offSpawn` the
`tilePosition.x != 0 && tilePosition.y != 0` test, and `r` the tile's
`Math.random()` draw. The grass-band branch testing `r > 0.88` after
`r > 0.83` is unreachable; it is kept as in the source. -/
def hexHardUpdate (height : ℚ) (pos : Int × Int) (valid offSpawn : Bool) (r : ℚ)
    (hard : Int × Int → Bool) : Int × Int → Bool :=
  if height > STONE_HEIGHT then
    (if valid && offSpawn then
      (if r > 93/100 then markHard pos hard else hard)
     else hard)
  else if height > DIRT_HEIGHT then hard
  else if height > GRASS_HEIGHT then
    (if valid && offSpawn then
      (if r > 98/100 then markHard pos hard
       else if r > 96/100 then markHard pos hard
       else if r > 91/100 then hard
       else if r > 83/100 then hard
       else if r > 88/100 then markHard pos hard
       else if r > 80/100 then hard
       else hard)
     else hard)
  else if height > SAND_HEIGHT then
    (if valid && offSpawn then
      (if r > 94/100 then markHard pos hard else hard)
     else hard)
  else if height > GRAVEL_HEIGHT then hard
  else if height > DIRT2_HEIGHT then hard
  else hard

/-- C10: passability is monotonically downgraded. Every `hardTerrain` write
performed by `hex` after the initial record either leaves a tile's flag
unchanged or sets it to impassable (value 1), and a tile already impassable
can never become passable again. -/
theorem hex_passability_monotone (height : ℚ) (pos : Int × Int)
    (valid offSpawn : Bool) (r : ℚ) (hard : Int × Int → Bool) (q : Int × Int) :
    (hexHardUpdate height pos valid offSpawn r hard q = hard q ∨
      hexHardUpdate height pos valid offSpawn r hard q = true) ∧
    (hard q = true → hexHardUpdate height pos valid offSpawn r hard q = true) := by
  have hcases : hexHardUpdate height pos valid offSpawn r hard = hard ∨
      hexHardUpdate height pos valid offSpawn r hard = markHard pos hard := by
    unfold hexHardUpdate
    by_cases h1 : height > STONE_HEIGHT
    · rw [if_pos h1]
      by_cases hv : (valid && offSpawn) = true
      · rw [if_pos hv]
        by_cases hr : r > 93/100
        · rw [if_pos hr]
          right
          rfl
        · rw [if_neg hr]
          left
          rfl
      · rw [if_neg hv]
        left
        rfl
    · rw [if_neg h1]
      by_cases h2 : height > DIRT_HEIGHT
      · rw [if_pos h2]
        left
        rfl
      · rw [if_neg h2]
        by_cases h3 : height > GRASS_HEIGHT
        · rw [if_pos h3]
          by_cases hv : (valid && offSpawn) = true
          · rw [if_pos hv]
            by_cases r98 : r > 98/100
            · rw [if_pos r98]
              right
              rfl
            · rw [if_neg r98]
              by_cases r96 : r > 96/100
              · rw [if_pos r96]
                right
                rfl
              · rw [if_neg r96]
                by_cases r91 : r > 91/100
                · rw [if_pos r91]
                  left
                  rfl
                · rw [if_neg r91]
                  by_cases r83 : r > 83/100
                  · rw [if_pos r83]
                    left
                    rfl
                  · rw [if_neg r83]
                    by_cases r88 : r > 88/100
                    · rw [if_pos r88]
                      right
                      rfl
                    · rw [if_neg r88]
                      by_cases r80 : r > 80/100
                      · rw [if_pos r80]
                        left
                        rfl
                      · rw [if_neg r80]
                        left
                        rfl
          · rw [if_neg hv]
            left
            rfl
        · rw [if_neg h3]
          by_cases h4 : height > SAND_HEIGHT
          · rw [if_pos h4]
            by_cases hv : (valid && offSpawn) = true
            · rw [if_pos hv]
              by_cases r94 : r > 94/100
              · rw [if_pos r94]
                right
                rfl
              · rw [if_neg r94]
                left
                rfl
            · rw [if_neg hv]
              left
              rfl
          · rw [if_neg h4]
            by_cases h5 : height > GRAVEL_HEIGHT
            · rw [if_pos h5]
              left
              rfl
            · rw [if_neg h5]
              by_cases h6 : height > DIRT2_HEIGHT
              · rw [if_pos h6]
                left
                rfl
              · rw [if_neg h6]
                left
                rfl
  rcases hcases with hc | hc
  · rw [hc]
    exact ⟨Or.inl rfl, fun h => h⟩
  · rw [hc]
    unfold markHard
    by_cases hq : q = pos
    · rw [if_pos hq]
      exact ⟨Or.inr rfl, fun _ => rfl⟩
    · rw [if_neg hq]
      exact ⟨Or.inl rfl, fun h => h⟩

/-- Witness for C10: a stone-band rock placement on tile (1,1) leaves the
already-impassable tile (0,0) impassable. -/
theorem hex_passability_monotone_witness :
    hexHardUpdate 9 (1, 1) true true (99/100) (fun _ => true) (0, 0) = true :=
  (hex_passability_monotone 9 (1, 1) true true (99/100) (fun _ => true) (0, 0)).2 rfl

/-- Witness for C7's amended statement: spacebar advances the turn by one,
the left arrow key leaves it unchanged. -/
theorem turn_counter_step_witness :
    (keydown Key.space gridPair hardNone baseState).turnNumber =
      baseState.turnNumber + 1 ∧
    (keydown Key.arrowLeft gridPair hardNone baseState).turnNumber =
      baseState.turnNumber :=
  ⟨(turn_counter_step Key.arrowLeft gridPair hardNone baseState).1,
   (turn_counter_step Key.arrowLeft gridPair hardNone baseState).2.1 (by decide)⟩
